import Mathlib

/-
Shallow embedding of `src/server.py` (`ReviewAnalyzerServer`): an in-memory
review store served over WSGI, with location/date filtering, VADER sentiment
scoring and sentiment-sorted GET responses, and a validated POST append.

External library calls are modelled at their call boundary:
 - `sia.polarity_scores` (the VADER model) is an arbitrary pure function
   `String → Sentiment`; its four float scores are modelled as rationals;
 - `urllib.parse.parse_qs` results enter as already-parsed optional string
   parameters (`parse_qs` drops blank values, and `.get(k, [None])[0]` yields
   `None` for a missing key, hence `Option String` with Python truthiness);
 - `uuid.uuid4()` and `datetime.now()` enter as explicit per-request inputs;
 - `datetime.strptime` with the two fixed formats of the code is embedded as
   `parseDate10` / `parseTimestamp19` (on zero-padded input), raising
   `ValueError` becomes `none`; `datetime.strftime('%Y-%m-%d %H:%M:%S')` is
   `formatTimestamp`; `datetime` comparison is `DateTime.le`.

The Python GET branch mutates shared state: `review['sentiment'] = ...`
writes into the dict objects held by the global `reviews` list, and when no
filter was applied `filtered_reviews` *is* the global list, so the in-place
`sort` reorders the store itself.  `getStep` reproduces both effects.
-/

set_option maxHeartbeats 1000000

/-- Sentiment scores returned by VADER (`sia.polarity_scores`); the four
float fields of the Python dict are modelled as rationals. -/
structure Sentiment where
  neg : ℚ
  neu : ℚ
  pos : ℚ
  compound : ℚ
deriving DecidableEq, Repr

/-- Wall-clock time as produced by `datetime.strptime` with the two formats
used in `server.py` (neither format yields microseconds). -/
structure DateTime where
  year : Nat
  month : Nat
  day : Nat
  hour : Nat
  minute : Nat
  second : Nat
deriving DecidableEq, Repr

/-- Embedding of Python `datetime` comparison: lexicographic on the fields. -/
def DateTime.le (a b : DateTime) : Bool :=
  if a.year ≠ b.year then decide (a.year < b.year)
  else if a.month ≠ b.month then decide (a.month < b.month)
  else if a.day ≠ b.day then decide (a.day < b.day)
  else if a.hour ≠ b.hour then decide (a.hour < b.hour)
  else if a.minute ≠ b.minute then decide (a.minute < b.minute)
  else decide (a.second ≤ b.second)

/-- Leap-year rule of the proleptic Gregorian calendar used by `datetime`. -/
def isLeapYear (y : Nat) : Bool :=
  (y % 4 == 0 && y % 100 != 0) || y % 400 == 0

/-- Days of month `m` of year `y`, as validated by the `datetime` constructor
invoked by `strptime`. -/
def daysInMonth (y m : Nat) : Nat :=
  if m == 2 then (if isLeapYear y then 29 else 28)
  else if m == 4 || m == 6 || m == 9 || m == 11 then 30
  else 31

/-- Numeric value of a decimal digit character. -/
def digitVal (c : Char) : Nat := c.toNat - 48

/-- Reads a two-digit zero-padded decimal field. -/
def read2 (a b : Char) : Option Nat :=
  if a.isDigit && b.isDigit then some (10 * digitVal a + digitVal b) else none

/-- Reads a four-digit decimal field (the `%Y` field). -/
def read4 (a b c d : Char) : Option Nat :=
  if a.isDigit && b.isDigit && c.isDigit && d.isDigit then
    some (1000 * digitVal a + 100 * digitVal b + 10 * digitVal c + digitVal d)
  else none

/-- Embedding of `datetime.strptime(s, '%Y-%m-%d')` on zero-padded input:
midnight of the given day; a `ValueError` (bad shape or out-of-range field,
Python's `MINYEAR` being 1) becomes `none`. -/
def parseDate10 (s : String) : Option DateTime :=
  match s.toList with
  | [y1, y2, y3, y4, u1, m1, m2, u2, d1, d2] =>
    if u1 = '-' ∧ u2 = '-' then
      match read4 y1 y2 y3 y4, read2 m1 m2, read2 d1 d2 with
      | some y, some m, some d =>
        if 1 ≤ y ∧ 1 ≤ m ∧ m ≤ 12 ∧ 1 ≤ d ∧ d ≤ daysInMonth y m then
          some ⟨y, m, d, 0, 0, 0⟩
        else none
      | _, _, _ => none
    else none
  | _ => none

/-- Embedding of `datetime.strptime(s, '%Y-%m-%d %H:%M:%S')` on zero-padded
input, with the field-range validation performed by `datetime`. -/
def parseTimestamp19 (s : String) : Option DateTime :=
  match s.toList with
  | [y1, y2, y3, y4, u1, m1, m2, u2, d1, d2, sp, h1, h2, v1, n1, n2, v2, s1, s2] =>
    if u1 = '-' ∧ u2 = '-' ∧ sp = ' ' ∧ v1 = ':' ∧ v2 = ':' then
      match read4 y1 y2 y3 y4, read2 m1 m2, read2 d1 d2,
            read2 h1 h2, read2 n1 n2, read2 s1 s2 with
      | some y, some mo, some d, some hh, some mi, some ss =>
        if 1 ≤ y ∧ 1 ≤ mo ∧ mo ≤ 12 ∧ 1 ≤ d ∧ d ≤ daysInMonth y mo ∧
            hh ≤ 23 ∧ mi ≤ 59 ∧ ss ≤ 59 then
          some ⟨y, mo, d, hh, mi, ss⟩
        else none
      | _, _, _, _, _, _ => none
    else none
  | _ => none

/-- Two-digit zero-padded rendering of a field value. -/
def pad2 (n : Nat) : List Char :=
  [Nat.digitChar (n / 10 % 10), Nat.digitChar (n % 10)]

/-- Four-digit zero-padded rendering of the year. -/
def pad4 (n : Nat) : List Char :=
  [Nat.digitChar (n / 1000 % 10), Nat.digitChar (n / 100 % 10),
   Nat.digitChar (n / 10 % 10), Nat.digitChar (n % 10)]

/-- Embedding of `datetime.strftime('%Y-%m-%d %H:%M:%S')` for the in-range
timestamps produced by `datetime.now()`. -/
def formatTimestamp (d : DateTime) : String :=
  ⟨pad4 d.year ++ '-' :: pad2 d.month ++ '-' :: pad2 d.day ++
    ' ' :: pad2 d.hour ++ ':' :: pad2 d.minute ++ ':' :: pad2 d.second⟩

/-- Field ranges of a `datetime.datetime` value, as guaranteed for
`datetime.now()` and enforced by the `datetime` constructor. -/
def DateTime.Valid (d : DateTime) : Prop :=
  1 ≤ d.year ∧ d.year ≤ 9999 ∧ 1 ≤ d.month ∧ d.month ≤ 12 ∧ 1 ≤ d.day ∧
    d.day ≤ daysInMonth d.year d.month ∧ d.hour ≤ 23 ∧ d.minute ≤ 59 ∧
    d.second ≤ 59

instance (d : DateTime) : Decidable d.Valid := by
  unfold DateTime.Valid
  infer_instance

/-- One review record (a Python dict in the source).  `reviewId` is the
`ReviewId` key (absent on seed rows that lack the column), `sentiment` the
`sentiment` key, absent until a GET writes the computed scores into the
record. -/
structure Review where
  reviewId : Option String
  reviewBody : String
  location : String
  timestamp : String
  sentiment : Option Sentiment
deriving DecidableEq, Repr

/-- The fixed allow-list `ALLOWED_LOCATIONS` of `server.py`. -/
def ALLOWED_LOCATIONS : List String :=
  ["Albuquerque, New Mexico", "Carlsbad, California", "Chula Vista, California",
   "Colorado Springs, Colorado", "Denver, Colorado", "El Cajon, California",
   "El Paso, Texas", "Escondido, California", "Fresno, California",
   "La Mesa, California", "Las Vegas, Nevada", "Los Angeles, California",
   "Oceanside, California", "Phoenix, Arizona", "Sacramento, California",
   "Salt Lake City, Utah", "San Diego, California", "Tucson, Arizona"]

/-- The three optional GET query parameters, as extracted from `parse_qs`. -/
structure Query where
  location : Option String
  startDate : Option String
  endDate : Option String
deriving DecidableEq, Repr

/-- The two url-encoded POST fields, as extracted from `parse_qs`. -/
structure PostForm where
  reviewBody : Option String
  location : Option String
deriving DecidableEq, Repr

/-- Python truthiness of an optional string (`if location:`): `None` and the
empty string are falsy. -/
def truthy : Option String → Bool
  | none => false
  | some s => !s.isEmpty

/-- Normalises an optional parameter by Python truthiness: a falsy value acts
as an absent parameter. -/
def truthyParam : Option String → Option String
  | none => none
  | some s => if s.isEmpty then none else some s

/-- The `location` query parameter after the `if location:` truthiness test. -/
def locParam (q : Query) : Option String := truthyParam q.location

/-- The `start_date` query parameter after its truthiness test. -/
def startParam (q : Query) : Option String := truthyParam q.startDate

/-- The `end_date` query parameter after its truthiness test. -/
def endParam (q : Query) : Option String := truthyParam q.endDate

/-- Outcome of a GET request.  `exn` models an uncaught exception escaping the
handler (the GET branch has no `try`/`except`), instead of an HTTP response. -/
inductive GetResult where
  | ok (body : List Review)
  | badRequest (error : String)
  | exn
deriving DecidableEq, Repr

/-- True exactly when the GET branch produced an HTTP response (200 or 400)
rather than raising an uncaught exception. -/
def GetResult.responded : GetResult → Bool
  | .exn => false
  | _ => true

/-- Outcome of the POST branch.  `badRequest e` is a 400 response whose body
is the JSON object with error message `e`; `serverError e` is the 500 response
of the `except` clause with `str(e) = e`. -/
inductive PostResult where
  | created (record : Review)
  | badRequest (error : String)
  | serverError (error : String)
deriving DecidableEq, Repr

/-- Result of the GET filtering pipeline (lines 56-80 of `server.py`):
either the 400 early return, an uncaught `strptime` exception, or the
filtered list together with the aliasing flag, which is true exactly when no
filter was applied and `filtered_reviews` is still the global list itself. -/
inductive GetOutcome where
  | invalidLoc
  | exn
  | ok (filtered : List Review) (aliased : Bool)
deriving DecidableEq, Repr

/-- The list after the location filter (line 70), when reached. -/
def locFiltered (q : Query) (rs : List Review) : List Review :=
  match locParam q with
  | some l => rs.filter (fun r => r.location == l)
  | none => rs

/-- One date-filter comprehension (lines 75 and 80): every record of the list
has its `Timestamp` parsed; a record is kept when `keep` accepts the parsed
time; an unparseable stored timestamp raises, modelled as `none`. -/
def filterTs (keep : DateTime → Bool) : List Review → Option (List Review)
  | [] => some []
  | r :: rs =>
    match parseTimestamp19 r.timestamp with
    | none => none
    | some t =>
      match filterTs keep rs with
      | none => none
      | some out => some (if keep t then r :: out else out)

/-- The `end_date` stage of the filtering pipeline (lines 77-80). -/
def getFilteredEnd (q : Query) (filtered : List Review) (aliased : Bool) :
    GetOutcome :=
  match endParam q with
  | some s =>
    match parseDate10 s with
    | none => .exn
    | some ed =>
      match filterTs (fun t => t.le ed) filtered with
      | none => .exn
      | some f => .ok f false
  | none => .ok filtered aliased

/-- The `start_date` stage of the filtering pipeline (lines 72-75). -/
def getFilteredDates (q : Query) (filtered : List Review) (aliased : Bool) :
    GetOutcome :=
  match startParam q with
  | some s =>
    match parseDate10 s with
    | none => .exn
    | some sd =>
      match filterTs (fun t => sd.le t) filtered with
      | none => .exn
      | some f => getFilteredEnd q f false
  | none => getFilteredEnd q filtered aliased

/-- The whole GET filtering pipeline (lines 56-80): location allow-list check
and location filter, then the two date filters. -/
def getFiltered (q : Query) (reviews : List Review) : GetOutcome :=
  match locParam q with
  | some l =>
    if l ∈ ALLOWED_LOCATIONS then
      getFilteredDates q (reviews.filter (fun r => r.location == l)) false
    else .invalidLoc
  | none => getFilteredDates q reviews true

/-- The sentiment write `review['sentiment'] = self.analyze_sentiment(...)`
(line 84) on one record. -/
def setSentiment (analyze : String → Sentiment) (r : Review) : Review :=
  { r with sentiment := some (analyze r.reviewBody) }

/-- A record with its `sentiment` key removed; used to state which parts of
the store a GET can and cannot change. -/
def stripSentiment (r : Review) : Review :=
  { r with sentiment := none }

/-- The sort key `x['sentiment']['compound']` (line 87).  In the handler the
key is only ever read after line 84 stored the scores, so the `none` case
(a `KeyError` in Python) is unreachable there. -/
def compoundKey (r : Review) : ℚ :=
  match r.sentiment with
  | some s => s.compound
  | none => 0

/-- Stable insertion of a record into a list sorted by non-increasing
compound score: the record moves past exactly the records with strictly
greater key, so equal keys keep their original relative order. -/
def insertByCompound (r : Review) : List Review → List Review
  | [] => [r]
  | x :: xs =>
    if compoundKey r < compoundKey x then x :: insertByCompound r xs
    else r :: x :: xs

/-- The in-place `filtered_reviews.sort(key=..., reverse=True)` of line 87:
a stable sort by non-increasing compound score (Python's `list.sort` is
stable, and `reverse=True` preserves the order of equal keys). -/
def sortByCompound (l : List Review) : List Review :=
  l.foldr insertByCompound []

/-- Embedding of the GET branch of `ReviewAnalyzerServer.__call__`
(lines 54-92).  First component: the HTTP outcome.  Second component: the
review store after the request — the sentiment writes of line 84 mutate the
dict objects shared with the global list (modelled by updating every stored
record that survived the filters), and when no filter was applied the
in-place sort of line 87 reorders the global list itself. -/
def getStep (analyze : String → Sentiment) (q : Query) (reviews : List Review) :
    GetResult × List Review :=
  match getFiltered q reviews with
  | .invalidLoc => (.badRequest "Invalid location", reviews)
  | .exn => (.exn, reviews)
  | .ok pre aliased =>
    let out := sortByCompound (pre.map (setSentiment analyze))
    (.ok out,
      if aliased then out
      else reviews.map fun r => if r ∈ pre then setSentiment analyze r else r)

/-- Embedding of the POST branch (lines 95-134).  `form` is the result of
reading and url-decoding the request body: `Except.error e` models an
exception raised there, caught by the `except` clause and turned into a 500
with message `e`.  `freshId` is this request's `uuid.uuid4()` value and
`now` its `datetime.now()` value. -/
def postStep (freshId : String) (now : DateTime) (form : Except String PostForm)
    (reviews : List Review) : PostResult × List Review :=
  match form with
  | .error msg => (.serverError msg, reviews)
  | .ok f =>
    if !truthy f.reviewBody || !truthy f.location then
      (.badRequest "ReviewBody and Location are required fields", reviews)
    else if f.location.getD "" ∉ ALLOWED_LOCATIONS then
      (.badRequest "Invalid location", reviews)
    else
      let r : Review :=
        ⟨some freshId, f.reviewBody.getD "", f.location.getD "",
         formatTimestamp now, none⟩
      (.created r, reviews ++ [r])

/-- The per-request nondeterministic inputs of one POST. -/
structure PostInput where
  freshId : String
  now : DateTime
  form : Except String PostForm

/-- Runs a sequence of POST requests against the store. -/
def runPosts : List PostInput → List Review → List Review
  | [], rs => rs
  | i :: is, rs => runPosts is (postStep i.freshId i.now i.form rs).2

/-- A response of the full handler: either from the GET or the POST branch. -/
inductive HandlerResult where
  | get (r : GetResult)
  | post (r : PostResult)
deriving DecidableEq, Repr

/-- Embedding of `ReviewAnalyzerServer.__call__` itself: the two
`REQUEST_METHOD` tests in source order.  When the method is neither `GET` nor
`POST` the Python function falls through both branches and implicitly returns
`None` without calling `start_response`, modelled by the `none` response. -/
def handle (analyze : String → Sentiment) (method : String) (q : Query)
    (form : Except String PostForm) (freshId : String) (now : DateTime)
    (reviews : List Review) : Option HandlerResult × List Review :=
  if method = "GET" then
    ((getStep analyze q reviews).1 |> HandlerResult.get |> some,
     (getStep analyze q reviews).2)
  else if method = "POST" then
    ((postStep freshId now form reviews).1 |> HandlerResult.post |> some,
     (postStep freshId now form reviews).2)
  else (none, reviews)

/-- The image of a pipeline outcome under `stripSentiment`; used to show the
pipeline reads none of the `sentiment` values. -/
def stripOutcome : GetOutcome → GetOutcome
  | .ok pre b => .ok (pre.map stripSentiment) b
  | x => x

/-- Keep-predicate of one date-filter comprehension, at the level of a single
record: the parsed stored timestamp satisfies `keep` (an unparseable stored
timestamp never satisfies it; in the handler that case raises instead). -/
def tsKeep (keep : DateTime → Bool) (r : Review) : Bool :=
  match parseTimestamp19 r.timestamp with
  | some t => keep t
  | none => false

/-- Digit characters are digits. -/
theorem digitChar_isDigit (x : Nat) (hx : x < 10) :
    (Nat.digitChar x).isDigit = true := by
  interval_cases x <;> decide

/-- Reading back a digit character gives the digit. -/
theorem digitVal_digitChar (x : Nat) (hx : x < 10) :
    digitVal (Nat.digitChar x) = x := by
  interval_cases x <;> decide

/-- Round trip of a two-digit zero-padded field. -/
theorem read2_pad2 (n : Nat) (hn : n ≤ 99) :
    read2 (Nat.digitChar (n / 10 % 10)) (Nat.digitChar (n % 10)) = some n := by
  have h1 : n / 10 % 10 < 10 := Nat.mod_lt _ (by omega)
  have h2 : n % 10 < 10 := Nat.mod_lt _ (by omega)
  unfold read2
  rw [digitChar_isDigit _ h1, digitChar_isDigit _ h2,
    digitVal_digitChar _ h1, digitVal_digitChar _ h2]
  simp only [Bool.and_self, if_true]
  congr 1
  omega

/-- Round trip of the four-digit year field. -/
theorem read4_pad4 (n : Nat) (hn : n ≤ 9999) :
    read4 (Nat.digitChar (n / 1000 % 10)) (Nat.digitChar (n / 100 % 10))
      (Nat.digitChar (n / 10 % 10)) (Nat.digitChar (n % 10)) = some n := by
  have h1 : n / 1000 % 10 < 10 := Nat.mod_lt _ (by omega)
  have h2 : n / 100 % 10 < 10 := Nat.mod_lt _ (by omega)
  have h3 : n / 10 % 10 < 10 := Nat.mod_lt _ (by omega)
  have h4 : n % 10 < 10 := Nat.mod_lt _ (by omega)
  unfold read4
  rw [digitChar_isDigit _ h1, digitChar_isDigit _ h2, digitChar_isDigit _ h3,
    digitChar_isDigit _ h4, digitVal_digitChar _ h1, digitVal_digitChar _ h2,
    digitVal_digitChar _ h3, digitVal_digitChar _ h4]
  simp only [Bool.and_self, if_true]
  congr 1
  omega

/-- Every month has at most 31 days. -/
theorem daysInMonth_le_31 (y m : Nat) : daysInMonth y m ≤ 31 := by
  unfold daysInMonth
  split
  · split <;> omega
  · split <;> omega

/-- The timestamps written by the POST path parse back to the same value:
`strptime(now.strftime('%Y-%m-%d %H:%M:%S'), '%Y-%m-%d %H:%M:%S') = now`. -/
theorem parseTimestamp19_formatTimestamp (d : DateTime) (hd : d.Valid) :
    parseTimestamp19 (formatTimestamp d) = some d := by
  obtain ⟨y, mo, dy, hh, mi, ss⟩ := d
  obtain ⟨h1, h2, h3, h4, h5, h6, h7, h8, h9⟩ := hd
  dsimp only at h1 h2 h3 h4 h5 h6 h7 h8 h9
  simp only [formatTimestamp, pad4, pad2, List.cons_append, List.nil_append]
  simp only [parseTimestamp19, String.toList]
  have hdm := daysInMonth_le_31 y mo
  rw [read4_pad4 y (by omega), read2_pad2 mo (by omega), read2_pad2 dy (by omega),
    read2_pad2 hh (by omega), read2_pad2 mi (by omega), read2_pad2 ss (by omega)]
  have hc : 1 ≤ y ∧ 1 ≤ mo ∧ mo ≤ 12 ∧ 1 ≤ dy ∧ dy ≤ daysInMonth y mo ∧
      hh ≤ 23 ∧ mi ≤ 59 ∧ ss ≤ 59 := ⟨h1, h3, h4, h5, h6, h7, h8, h9⟩
  simp [hc]

/-- The date-only `strptime` format defaults the missing time fields to zero,
so any parsed `start_date`/`end_date` bound is a midnight value. -/
theorem parseDate10_midnight (s : String) (d : DateTime)
    (h : parseDate10 s = some d) :
    d.hour = 0 ∧ d.minute = 0 ∧ d.second = 0 := by
  unfold parseDate10 at h
  split at h
  · split at h
    · split at h
      · split at h
        · injection h with h
          subst h
          exact ⟨rfl, rfl, rfl⟩
        · cases h
      · cases h
    · cases h
  · cases h

/-- Comparison against a midnight bound on the same calendar day succeeds
exactly at the midnight instant: any later time of that day exceeds the
bound. -/
theorem le_midnight_same_day (t ed : DateTime)
    (hh : ed.hour = 0) (hm : ed.minute = 0) (hs : ed.second = 0)
    (h1 : t.year = ed.year) (h2 : t.month = ed.month) (h3 : t.day = ed.day) :
    (t.le ed = true ↔ t.hour = 0 ∧ t.minute = 0 ∧ t.second = 0) := by
  unfold DateTime.le
  rw [h1, h2, h3, hh, hm, hs]
  simp only [ne_eq, not_true_eq_false, if_false, ite_self, if_neg]
  split_ifs <;> simp_all

/-- Characterisation of a successful date-filter comprehension: every stored
timestamp of the input parsed, and the output keeps exactly the records whose
parsed timestamp satisfies the bound, in order. -/
theorem filterTs_some_eq (keep : DateTime → Bool) (l out : List Review)
    (h : filterTs keep l = some out) :
    out = l.filter (tsKeep keep) ∧
      ∀ r ∈ l, (parseTimestamp19 r.timestamp).isSome := by
  induction l generalizing out with
  | nil =>
    simp only [filterTs, Option.some.injEq] at h
    simp [← h]
  | cons r rs ih =>
    unfold filterTs at h
    cases hp : parseTimestamp19 r.timestamp with
    | none => rw [hp] at h; cases h
    | some t =>
      rw [hp] at h
      cases hrec : filterTs keep rs with
      | none => rw [hrec] at h; cases h
      | some out1 =>
        rw [hrec] at h
        obtain ⟨he, hall⟩ := ih out1 hrec
        injection h with h
        refine ⟨?_, ?_⟩
        · rw [← h, he, List.filter_cons]
          by_cases hk : keep t <;> simp [hk, tsKeep, hp]
        · intro x hx
          rcases List.mem_cons.mp hx with rfl | hx
          · simp [hp]
          · exact hall x hx

/-- A date-filter comprehension over parseable stored timestamps does not
raise, and filters by the bound. -/
theorem filterTs_of_parseable (keep : DateTime → Bool) (l : List Review)
    (h : ∀ r ∈ l, (parseTimestamp19 r.timestamp).isSome) :
    filterTs keep l = some (l.filter (tsKeep keep)) := by
  induction l with
  | nil => rfl
  | cons r rs ih =>
    obtain ⟨t, hp⟩ := Option.isSome_iff_exists.mp (h r (by simp))
    unfold filterTs
    rw [hp, ih (fun x hx => h x (by simp [hx]))]
    rw [List.filter_cons]
    by_cases hk : keep t <;> simp [hk, tsKeep, hp]

/-- A raising date-filter comprehension pins an unparseable stored
timestamp. -/
theorem filterTs_none (keep : DateTime → Bool) (l : List Review)
    (h : filterTs keep l = none) :
    ∃ r ∈ l, parseTimestamp19 r.timestamp = none := by
  induction l with
  | nil => simp [filterTs] at h
  | cons r rs ih =>
    unfold filterTs at h
    cases hp : parseTimestamp19 r.timestamp with
    | none => exact ⟨r, by simp, hp⟩
    | some t =>
      rw [hp] at h
      cases hrec : filterTs keep rs with
      | none =>
        obtain ⟨x, hx, hxp⟩ := ih hrec
        exact ⟨x, by simp [hx], hxp⟩
      | some out => rw [hrec] at h; cases h

/-- Removing the sentiment key after writing it is the same as removing it. -/
theorem stripSentiment_setSentiment (a : String → Sentiment) (r : Review) :
    stripSentiment (setSentiment a r) = stripSentiment r := rfl

/-- The sentiment write only reads the review body, which it preserves. -/
theorem setSentiment_stripSentiment (a : String → Sentiment) (r : Review) :
    setSentiment a (stripSentiment r) = setSentiment a r := rfl

/-- Writing the sentiment twice equals writing it once. -/
theorem setSentiment_setSentiment (a : String → Sentiment) (r : Review) :
    setSentiment a (setSentiment a r) = setSentiment a r := rfl

/-- Inserting a record produces a permutation of prepending it. -/
theorem insertByCompound_perm (r : Review) (l : List Review) :
    (insertByCompound r l).Perm (r :: l) := by
  induction l with
  | nil => exact List.Perm.refl _
  | cons x xs ih =>
    unfold insertByCompound
    split
    · exact (ih.cons x).trans (List.Perm.swap r x xs)
    · exact List.Perm.refl _

/-- The sort produces a permutation of its input. -/
theorem sortByCompound_perm (l : List Review) : (sortByCompound l).Perm l := by
  induction l with
  | nil => exact List.Perm.refl _
  | cons r rs ih =>
    exact (insertByCompound_perm r (sortByCompound rs)).trans (ih.cons r)

/-- Inserting into a list sorted by non-increasing compound score keeps it
sorted. -/
theorem insertByCompound_pairwise (r : Review) (l : List Review)
    (h : l.Pairwise (fun a b => compoundKey b ≤ compoundKey a)) :
    (insertByCompound r l).Pairwise (fun a b => compoundKey b ≤ compoundKey a) := by
  induction l with
  | nil => simp [insertByCompound]
  | cons x xs ih =>
    rw [List.pairwise_cons] at h
    obtain ⟨hx, hxs⟩ := h
    unfold insertByCompound
    split
    · rename_i hlt
      rw [List.pairwise_cons]
      refine ⟨fun y hy => ?_, ih hxs⟩
      rcases List.mem_cons.mp ((insertByCompound_perm r xs).mem_iff.mp hy) with
        rfl | hy'
      · exact le_of_lt hlt
      · exact hx y hy'
    · rename_i hge
      push_neg at hge
      rw [List.pairwise_cons]
      refine ⟨fun y hy => ?_, List.pairwise_cons.mpr ⟨hx, hxs⟩⟩
      rcases List.mem_cons.mp hy with rfl | hy'
      · exact hge
      · exact (hx y hy').trans hge

/-- The sort output is sorted by non-increasing compound score. -/
theorem sortByCompound_pairwise (l : List Review) :
    (sortByCompound l).Pairwise (fun a b => compoundKey b ≤ compoundKey a) := by
  induction l with
  | nil => simp [sortByCompound]
  | cons r rs ih => exact insertByCompound_pairwise r (sortByCompound rs) ih

/-- Stability of insertion, first half: a record with key `c` is inserted in
front of the records with key `c` already present (it only moves past records
with strictly greater key). -/
theorem filter_insertByCompound_eq (r : Review) (l : List Review) (c : ℚ)
    (hr : compoundKey r = c) :
    (insertByCompound r l).filter (fun x => decide (compoundKey x = c)) =
      r :: l.filter (fun x => decide (compoundKey x = c)) := by
  induction l with
  | nil => simp [insertByCompound, hr]
  | cons x xs ih =>
    unfold insertByCompound
    split
    · rename_i hlt
      have hxc : ¬(compoundKey x = c) := fun hh => by
        rw [hr, ← hh] at hlt
        exact lt_irrefl _ hlt
      rw [List.filter_cons, List.filter_cons]
      simp [hxc, ih]
    · rw [List.filter_cons]
      simp [hr]

/-- Stability of insertion, second half: inserting a record with a different
key leaves the key-`c` subsequence unchanged. -/
theorem filter_insertByCompound_ne (r : Review) (l : List Review) (c : ℚ)
    (hr : ¬(compoundKey r = c)) :
    (insertByCompound r l).filter (fun x => decide (compoundKey x = c)) =
      l.filter (fun x => decide (compoundKey x = c)) := by
  induction l with
  | nil => simp [insertByCompound, hr]
  | cons x xs ih =>
    unfold insertByCompound
    split
    · rw [List.filter_cons, List.filter_cons, ih]
    · rw [List.filter_cons]
      simp [hr]

/-- Stability of the sort: for each key value, the subsequence of records
with that compound score is exactly the one of the unsorted input. -/
theorem sortByCompound_stable (l : List Review) (c : ℚ) :
    (sortByCompound l).filter (fun x => decide (compoundKey x = c)) =
      l.filter (fun x => decide (compoundKey x = c)) := by
  induction l with
  | nil => rfl
  | cons r rs ih =>
    show (insertByCompound r (sortByCompound rs)).filter _ = _
    by_cases hr : compoundKey r = c
    · rw [filter_insertByCompound_eq r _ c hr, ih, List.filter_cons]
      simp [hr]
    · rw [filter_insertByCompound_ne r _ c hr, ih, List.filter_cons]
      simp [hr]

/-- Inserting a record whose key dominates the whole list prepends it. -/
theorem insertByCompound_of_le (r : Review) (l : List Review)
    (h : ∀ y ∈ l, compoundKey y ≤ compoundKey r) :
    insertByCompound r l = r :: l := by
  cases l with
  | nil => rfl
  | cons x xs =>
    unfold insertByCompound
    exact if_neg (not_lt.mpr (h x (by simp)))

/-- Sorting an already sorted list changes nothing (Python's stable sort is
the identity on sorted input). -/
theorem sortByCompound_of_pairwise (l : List Review)
    (h : l.Pairwise (fun a b => compoundKey b ≤ compoundKey a)) :
    sortByCompound l = l := by
  induction l with
  | nil => rfl
  | cons r rs ih =>
    rw [List.pairwise_cons] at h
    obtain ⟨hr, hrs⟩ := h
    show insertByCompound r (sortByCompound rs) = r :: rs
    rw [ih hrs]
    exact insertByCompound_of_le r rs hr

/-- The location filter ignores the sentiment key. -/
theorem filter_location_map_strip (l : List Review) (x : String) :
    (l.map stripSentiment).filter (fun r => r.location == x) =
      (l.filter (fun r => r.location == x)).map stripSentiment := by
  induction l with
  | nil => rfl
  | cons r rs ih =>
    simp only [List.map_cons, List.filter_cons]
    have hx : ((stripSentiment r).location == x) = (r.location == x) := rfl
    rw [hx]
    by_cases h : (r.location == x) = true <;> simp [h, ih]

/-- The date filters ignore the sentiment key. -/
theorem filterTs_map_strip (keep : DateTime → Bool) (l : List Review) :
    filterTs keep (l.map stripSentiment) =
      (filterTs keep l).map (fun out => out.map stripSentiment) := by
  induction l with
  | nil => rfl
  | cons r rs ih =>
    simp only [List.map_cons]
    unfold filterTs
    have hts : parseTimestamp19 (stripSentiment r).timestamp =
        parseTimestamp19 r.timestamp := rfl
    rw [hts, ih]
    cases parseTimestamp19 r.timestamp with
    | none => rfl
    | some t =>
      cases filterTs keep rs with
      | none => rfl
      | some out => by_cases hk : keep t <;> simp [hk]

/-- The `end_date` stage reads no sentiment values. -/
theorem getFilteredEnd_strip (q : Query) (f : List Review) (b : Bool) :
    getFilteredEnd q (f.map stripSentiment) b =
      stripOutcome (getFilteredEnd q f b) := by
  cases he : endParam q with
  | none => simp only [getFilteredEnd, he, stripOutcome]
  | some s =>
    cases hp : parseDate10 s with
    | none => simp only [getFilteredEnd, he, hp, stripOutcome]
    | some ed =>
      simp only [getFilteredEnd, he, hp]
      rw [filterTs_map_strip]
      cases hft : filterTs (fun t => t.le ed) f with
      | none => simp only [Option.map_none', stripOutcome]
      | some out => simp only [Option.map_some', stripOutcome]

/-- The `start_date` stage reads no sentiment values. -/
theorem getFilteredDates_strip (q : Query) (f : List Review) (b : Bool) :
    getFilteredDates q (f.map stripSentiment) b =
      stripOutcome (getFilteredDates q f b) := by
  cases hs : startParam q with
  | none =>
    simp only [getFilteredDates, hs]
    exact getFilteredEnd_strip q f b
  | some s =>
    cases hp : parseDate10 s with
    | none => simp only [getFilteredDates, hs, hp, stripOutcome]
    | some sd =>
      simp only [getFilteredDates, hs, hp]
      rw [filterTs_map_strip]
      cases hft : filterTs (fun t => sd.le t) f with
      | none => simp only [Option.map_none', stripOutcome]
      | some out =>
        simp only [Option.map_some']
        exact getFilteredEnd_strip q out false

/-- The whole filtering pipeline reads no sentiment values: its outcome on a
store with the sentiment keys removed is the stripped outcome. -/
theorem getFiltered_strip (q : Query) (rs : List Review) :
    getFiltered q (rs.map stripSentiment) = stripOutcome (getFiltered q rs) := by
  unfold getFiltered
  cases locParam q with
  | none => exact getFilteredDates_strip q rs true
  | some l =>
    by_cases hl : l ∈ ALLOWED_LOCATIONS
    · simp only [hl, if_true]
      rw [filter_location_map_strip]
      exact getFilteredDates_strip q _ false
    · simp only [hl, if_false]
      rfl

/-- The aliasing flag survives the `end_date` stage only when that filter is
absent. -/
theorem getFilteredEnd_ok_true (q : Query) (f pre : List Review) (b : Bool)
    (h : getFilteredEnd q f b = .ok pre true) :
    endParam q = none ∧ pre = f ∧ b = true := by
  cases he : endParam q with
  | none =>
    simp only [getFilteredEnd, he, GetOutcome.ok.injEq] at h
    exact ⟨rfl, h.1.symm, h.2⟩
  | some s =>
    cases hp : parseDate10 s with
    | none => simp [getFilteredEnd, he, hp] at h
    | some ed =>
      cases hft : filterTs (fun t => t.le ed) f with
      | none => simp [getFilteredEnd, he, hp, hft] at h
      | some out => simp [getFilteredEnd, he, hp, hft] at h

/-- The aliasing flag survives the date stages only when both filters are
absent. -/
theorem getFilteredDates_ok_true (q : Query) (f pre : List Review) (b : Bool)
    (h : getFilteredDates q f b = .ok pre true) :
    startParam q = none ∧ endParam q = none ∧ pre = f ∧ b = true := by
  cases hs : startParam q with
  | none =>
    simp only [getFilteredDates, hs] at h
    obtain ⟨h1, h2, h3⟩ := getFilteredEnd_ok_true q f pre b h
    exact ⟨rfl, h1, h2, h3⟩
  | some s =>
    cases hp : parseDate10 s with
    | none => simp [getFilteredDates, hs, hp] at h
    | some sd =>
      cases hft : filterTs (fun t => sd.le t) f with
      | none => simp [getFilteredDates, hs, hp, hft] at h
      | some out =>
        simp only [getFilteredDates, hs, hp, hft] at h
        obtain ⟨h1, h2, h3⟩ := getFilteredEnd_ok_true q out pre false h
        cases h3

/-- An aliased pipeline outcome means no filter at all was applied and the
filtered list is the global list itself (`filtered_reviews = reviews`). -/
theorem getFiltered_ok_true (q : Query) (rs pre : List Review)
    (h : getFiltered q rs = .ok pre true) :
    locParam q = none ∧ startParam q = none ∧ endParam q = none ∧ pre = rs := by
  cases hl : locParam q with
  | none =>
    simp only [getFiltered, hl] at h
    obtain ⟨h1, h2, h3, h4⟩ := getFilteredDates_ok_true q rs pre true h
    exact ⟨rfl, h1, h2, h3⟩
  | some l =>
    by_cases hin : l ∈ ALLOWED_LOCATIONS
    · simp only [getFiltered, hl, if_pos hin] at h
      obtain ⟨h1, h2, h3, h4⟩ := getFilteredDates_ok_true q _ pre false h
      cases h4
    · simp [getFiltered, hl, hin] at h

/-- Removing the sentiment key commutes with the conditional sentiment write
performed on the stored records by a GET. -/
theorem strip_condSet (a : String → Sentiment) (pre : List Review) (r : Review) :
    stripSentiment (if r ∈ pre then setSentiment a r else r) = stripSentiment r := by
  split <;> rfl

/-- Writing sentiments before removing the key is the same as removing it. -/
theorem map_strip_condSet (a : String → Sentiment) (pre rs : List Review) :
    ((rs.map fun r => if r ∈ pre then setSentiment a r else r).map stripSentiment) =
      rs.map stripSentiment := by
  rw [List.map_map]
  exact List.map_congr_left fun r _ => strip_condSet a pre r

/-- Writing sentiments ignores the previous sentiment key. -/
theorem map_set_map_strip (a : String → Sentiment) (l : List Review) :
    (l.map stripSentiment).map (setSentiment a) = l.map (setSentiment a) := by
  rw [List.map_map]
  exact List.map_congr_left fun r _ => setSentiment_stripSentiment a r

/-- Explicit form of a GET that reaches the response code (lines 83-92):
response body is the sorted sentiment-carrying filtered list; the store keeps
its order but records surviving the filters carry the written sentiment —
unless no filter was applied, in which case the store is the sorted response
list itself. -/
theorem getStep_ok_eq (a : String → Sentiment) (q : Query)
    (rs pre : List Review) (b : Bool) (hf : getFiltered q rs = .ok pre b) :
    getStep a q rs =
      (.ok (sortByCompound (pre.map (setSentiment a))),
       if b then sortByCompound (pre.map (setSentiment a))
       else rs.map fun r => if r ∈ pre then setSentiment a r else r) := by
  simp only [getStep, hf]

/-- Every record of a 200 response body is a sentiment-carrying copy of a
record of the filtered list. -/
theorem mem_sortByCompound_map_set (a : String → Sentiment)
    (pre : List Review) (r : Review)
    (h : r ∈ sortByCompound (pre.map (setSentiment a))) :
    ∃ x ∈ pre, r = setSentiment a x := by
  have h2 := (sortByCompound_perm (pre.map (setSentiment a))).mem_iff.mp h
  obtain ⟨x, hx, hxr⟩ := List.mem_map.mp h2
  exact ⟨x, hx, hxr.symm⟩

/-- An exception in the `end_date` stage pins an unparseable `end_date`
parameter or an unparseable stored timestamp. -/
theorem getFilteredEnd_exn (q : Query) (f : List Review) (b : Bool)
    (h : getFilteredEnd q f b = .exn) :
    (∃ s, endParam q = some s ∧ parseDate10 s = none) ∨
      (∃ r ∈ f, parseTimestamp19 r.timestamp = none) := by
  cases he : endParam q with
  | none => simp [getFilteredEnd, he] at h
  | some s =>
    cases hp : parseDate10 s with
    | none => exact Or.inl ⟨s, rfl, hp⟩
    | some ed =>
      cases hft : filterTs (fun t => t.le ed) f with
      | none => exact Or.inr (filterTs_none _ f hft)
      | some out => simp [getFilteredEnd, he, hp, hft] at h

/-- An exception in the date stages pins an unparseable date parameter or an
unparseable stored timestamp. -/
theorem getFilteredDates_exn (q : Query) (f : List Review) (b : Bool)
    (h : getFilteredDates q f b = .exn) :
    (∃ s, startParam q = some s ∧ parseDate10 s = none) ∨
      (∃ s, endParam q = some s ∧ parseDate10 s = none) ∨
      (∃ r ∈ f, parseTimestamp19 r.timestamp = none) := by
  cases hs : startParam q with
  | none =>
    simp only [getFilteredDates, hs] at h
    rcases getFilteredEnd_exn q f b h with h1 | h1
    · exact Or.inr (Or.inl h1)
    · exact Or.inr (Or.inr h1)
  | some s =>
    cases hp : parseDate10 s with
    | none => exact Or.inl ⟨s, rfl, hp⟩
    | some sd =>
      cases hft : filterTs (fun t => sd.le t) f with
      | none => exact Or.inr (Or.inr (filterTs_none _ f hft))
      | some out =>
        simp only [getFilteredDates, hs, hp, hft] at h
        rcases getFilteredEnd_exn q out false h with h1 | h1
        · exact Or.inr (Or.inl h1)
        · obtain ⟨r, hr, hrp⟩ := h1
          obtain ⟨hout, -⟩ := filterTs_some_eq _ f out hft
          exact Or.inr (Or.inr ⟨r, List.mem_of_mem_filter (hout ▸ hr), hrp⟩)

/-- An uncaught exception in the GET pipeline pins an unparseable date
parameter or an unparseable stored timestamp. -/
theorem getFiltered_exn (q : Query) (rs : List Review)
    (h : getFiltered q rs = .exn) :
    (∃ s, startParam q = some s ∧ parseDate10 s = none) ∨
      (∃ s, endParam q = some s ∧ parseDate10 s = none) ∨
      (∃ r ∈ rs, parseTimestamp19 r.timestamp = none) := by
  cases hl : locParam q with
  | none =>
    simp only [getFiltered, hl] at h
    exact getFilteredDates_exn q rs true h
  | some l =>
    by_cases hin : l ∈ ALLOWED_LOCATIONS
    · simp only [getFiltered, hl, if_pos hin] at h
      rcases getFilteredDates_exn q _ false h with h1 | h1 | h1
      · exact Or.inl h1
      · exact Or.inr (Or.inl h1)
      · obtain ⟨r, hr, hrp⟩ := h1
        exact Or.inr (Or.inr ⟨r, List.mem_of_mem_filter hr, hrp⟩)
    · simp [getFiltered, hl, hin] at h

/-- A POST either appends exactly one validated, freshly stamped record (the
201 case) or leaves the store untouched. -/
theorem postStep_cases (freshId : String) (now : DateTime)
    (form : Except String PostForm) (rs : List Review) :
    (∃ rec, (postStep freshId now form rs).1 = .created rec ∧
      (postStep freshId now form rs).2 = rs ++ [rec] ∧
      rec.location ∈ ALLOWED_LOCATIONS ∧
      rec.timestamp = formatTimestamp now) ∨
    (postStep freshId now form rs).2 = rs := by
  cases form with
  | error msg => exact Or.inr rfl
  | ok f =>
    by_cases h1 : (!truthy f.reviewBody || !truthy f.location) = true
    · right
      simp [postStep, h1]
    · by_cases h2 : f.location.getD "" ∈ ALLOWED_LOCATIONS
      · left
        refine ⟨⟨some freshId, f.reviewBody.getD "", f.location.getD "",
          formatTimestamp now, none⟩, ?_, ?_, h2, rfl⟩ <;>
          simp [postStep, h1, h2]
      · right
        simp [postStep, h1, h2]

/-- C3: a POST with a truthy ReviewBody and an allowed truthy Location
returns 201 with a record carrying the freshly generated id, the current time
stamped in the fixed `%Y-%m-%d %H:%M:%S` format, the given body and location
and no sentiment key; exactly that record is appended to the store; and the
stored timestamp parses back under the fixed format to the request time. -/
theorem c3_post_success (freshId : String) (now : DateTime) (b l : Option String)
    (rs : List Review) (hb : truthy b = true) (hl : truthy l = true)
    (hloc : l.getD "" ∈ ALLOWED_LOCATIONS) (hv : now.Valid) :
    postStep freshId now (.ok ⟨b, l⟩) rs =
      (.created ⟨some freshId, b.getD "", l.getD "", formatTimestamp now, none⟩,
       rs ++ [⟨some freshId, b.getD "", l.getD "", formatTimestamp now, none⟩]) ∧
    parseTimestamp19 (formatTimestamp now) = some now := by
  refine ⟨?_, parseTimestamp19_formatTimestamp now hv⟩
  simp [postStep, hb, hl, hloc]

/-- Witness for C3 at a concrete request. -/
theorem c3_post_success_witness :
    postStep "id-1" ⟨2024, 5, 6, 7, 8, 9⟩
        (.ok ⟨some "Great stay", some "Denver, Colorado"⟩) [] =
      (.created ⟨some "id-1", "Great stay", "Denver, Colorado",
          formatTimestamp ⟨2024, 5, 6, 7, 8, 9⟩, none⟩,
       [⟨some "id-1", "Great stay", "Denver, Colorado",
          formatTimestamp ⟨2024, 5, 6, 7, 8, 9⟩, none⟩]) ∧
    parseTimestamp19 (formatTimestamp ⟨2024, 5, 6, 7, 8, 9⟩) =
      some ⟨2024, 5, 6, 7, 8, 9⟩ :=
  c3_post_success "id-1" ⟨2024, 5, 6, 7, 8, 9⟩ (some "Great stay")
    (some "Denver, Colorado") [] (by decide) (by decide) (by decide) (by decide)

/-- C4: POST validation: a missing or empty ReviewBody or Location yields the
400 missing-fields response — even when the location is also outside the
allow-list, since this check comes first; with both fields truthy, a location
outside the allow-list yields the 400 "Invalid location" response whatever
the body contains.  Neither rejection changes the store. -/
theorem c4_post_validation (freshId : String) (now : DateTime)
    (b l : Option String) (rs : List Review) :
    ((truthy b = false ∨ truthy l = false) →
      postStep freshId now (.ok ⟨b, l⟩) rs =
        (.badRequest "ReviewBody and Location are required fields", rs)) ∧
    (truthy b = true → truthy l = true → l.getD "" ∉ ALLOWED_LOCATIONS →
      postStep freshId now (.ok ⟨b, l⟩) rs =
        (.badRequest "Invalid location", rs)) := by
  constructor
  · intro h
    rcases h with h | h <;> simp [postStep, h]
  · intro hb hl hn
    simp [postStep, hb, hl, hn]

/-- Witness for C4: one missing-field rejection (with an invalid location as
well, showing precedence) and one invalid-location rejection. -/
theorem c4_post_validation_witness :
    postStep "id-1" ⟨2024, 5, 6, 7, 8, 9⟩ (.ok ⟨none, some "Nowhere, Atlantis"⟩) [] =
      (.badRequest "ReviewBody and Location are required fields", []) ∧
    postStep "id-1" ⟨2024, 5, 6, 7, 8, 9⟩
        (.ok ⟨some "Great stay", some "Nowhere, Atlantis"⟩) [] =
      (.badRequest "Invalid location", []) :=
  ⟨(c4_post_validation "id-1" ⟨2024, 5, 6, 7, 8, 9⟩ none
      (some "Nowhere, Atlantis") []).1 (Or.inl (by decide)),
   (c4_post_validation "id-1" ⟨2024, 5, 6, 7, 8, 9⟩ (some "Great stay")
      (some "Nowhere, Atlantis") []).2 (by decide) (by decide) (by decide)⟩

/-- C5: a GET whose location parameter is present, non-empty and outside the
allow-list returns the 400 response whose error body is "Invalid location",
and the store is returned exactly as it was: no filtering, sentiment
computation or mutation happens. -/
theorem c5_get_invalid_location (analyze : String → Sentiment) (q : Query)
    (rs : List Review) (l : String) (hl : locParam q = some l)
    (hnot : l ∉ ALLOWED_LOCATIONS) :
    getStep analyze q rs = (.badRequest "Invalid location", rs) := by
  simp [getStep, getFiltered, hl, hnot]

/-- Witness for C5 at a concrete request with a non-empty unknown location. -/
theorem c5_get_invalid_location_witness :
    getStep (fun _ => ⟨0, 0, 0, 0⟩) ⟨some "Nowhere, Atlantis", none, none⟩
        [⟨some "id0", "ok stay", "Denver, Colorado", "2024-01-01 00:00:00", none⟩] =
      (.badRequest "Invalid location",
       [⟨some "id0", "ok stay", "Denver, Colorado", "2024-01-01 00:00:00", none⟩]) :=
  c5_get_invalid_location (fun _ => ⟨0, 0, 0, 0⟩)
    ⟨some "Nowhere, Atlantis", none, none⟩
    [⟨some "id0", "ok stay", "Denver, Colorado", "2024-01-01 00:00:00", none⟩]
    "Nowhere, Atlantis" (by decide) (by decide)

/-- C10: a request whose method is neither GET nor POST falls through both
branches of `__call__`: no response is produced — the handler returns `None`
without calling `start_response` — and the store is untouched. -/
theorem c10_other_method_no_response (analyze : String → Sentiment)
    (method : String) (q : Query) (form : Except String PostForm)
    (freshId : String) (now : DateTime) (reviews : List Review)
    (h1 : method ≠ "GET") (h2 : method ≠ "POST") :
    handle analyze method q form freshId now reviews = (none, reviews) := by
  simp [handle, h1, h2]

/-- Witness for C10 at a PUT request. -/
theorem c10_other_method_no_response_witness :
    handle (fun _ => ⟨0, 0, 0, 0⟩) "PUT" ⟨none, none, none⟩
        (.ok ⟨none, none⟩) "id-1" ⟨2024, 5, 6, 7, 8, 9⟩ [] = (none, []) :=
  c10_other_method_no_response (fun _ => ⟨0, 0, 0, 0⟩) "PUT" ⟨none, none, none⟩
    (.ok ⟨none, none⟩) "id-1" ⟨2024, 5, 6, 7, 8, 9⟩ [] (by decide) (by decide)

/-- C6: write-path invariant: after any sequence of POSTs (whose wall-clock
times are in range), every stored record is either an original one or a
record accepted through a 201, and the accepted records all carry a location
of the allow-list and a timestamp that parses under the fixed format;
moreover any POST that does not return 201 leaves the store unchanged. -/
theorem c6_write_invariant (inputs : List PostInput) (rs0 : List Review)
    (hv : ∀ i ∈ inputs, i.now.Valid) :
    (∀ r ∈ runPosts inputs rs0, r ∈ rs0 ∨
      (r.location ∈ ALLOWED_LOCATIONS ∧ (parseTimestamp19 r.timestamp).isSome)) ∧
    (∀ (freshId : String) (now : DateTime) (form : Except String PostForm)
        (rs : List Review),
      (∀ rec, (postStep freshId now form rs).1 ≠ .created rec) →
      (postStep freshId now form rs).2 = rs) := by
  constructor
  · induction inputs generalizing rs0 with
    | nil => exact fun r hr => Or.inl hr
    | cons i is ih =>
      intro r hr
      have hr2 := ih (postStep i.freshId i.now i.form rs0).2
        (fun j hj => hv j (List.mem_cons_of_mem i hj)) r hr
      rcases postStep_cases i.freshId i.now i.form rs0 with
        ⟨rec, hres, hst, hloc, hts⟩ | hst
      · rcases hr2 with hmem | hgood
        · rw [hst] at hmem
          rcases List.mem_append.mp hmem with hmem | hmem
          · exact Or.inl hmem
          · right
            have hrec : r = rec := by simpa using hmem
            subst hrec
            refine ⟨hloc, ?_⟩
            rw [hts, parseTimestamp19_formatTimestamp i.now (hv i (by simp))]
            rfl
        · exact Or.inr hgood
      · rw [hst] at hr2
        exact hr2
  · intro freshId now form rs hrej
    rcases postStep_cases freshId now form rs with ⟨rec, hres, hst, -, -⟩ | hst
    · exact absurd hres (hrej rec)
    · exact hst

/-- Witness for C6: one successful POST on an empty store. -/
theorem c6_write_invariant_witness :
    (∀ r ∈ runPosts [⟨"id-1", ⟨2024, 5, 6, 7, 8, 9⟩,
        .ok ⟨some "Great stay", some "Denver, Colorado"⟩⟩] [],
      r ∈ ([] : List Review) ∨
      (r.location ∈ ALLOWED_LOCATIONS ∧ (parseTimestamp19 r.timestamp).isSome)) ∧
    (∀ (freshId : String) (now : DateTime) (form : Except String PostForm)
        (rs : List Review),
      (∀ rec, (postStep freshId now form rs).1 ≠ .created rec) →
      (postStep freshId now form rs).2 = rs) :=
  c6_write_invariant [⟨"id-1", ⟨2024, 5, 6, 7, 8, 9⟩,
      .ok ⟨some "Great stay", some "Denver, Colorado"⟩⟩] []
    (by decide)

/-- C7 counterexample: the claim that a GET leaves the stored collection
unchanged is false: a GET with no parameters writes the computed sentiment
into the stored record, so the store differs from what it was. -/
theorem c7_counterexample :
    (getStep (fun _ => ⟨0, 0, 0, 0⟩) ⟨none, none, none⟩
        [⟨some "id0", "ok stay", "Denver, Colorado", "2024-01-01 00:00:00", none⟩]).2 ≠
      [⟨some "id0", "ok stay", "Denver, Colorado", "2024-01-01 00:00:00", none⟩] := by
  decide

/-- C7 amended: a GET adds and removes no record and never touches the
identifier, body, location or timestamp of a stored record: with the
sentiment key removed, the store after a GET is a permutation of the store
before it.  (What a GET does change: it writes the computed sentiment into
each record surviving its filters, and when no filter at all was applied it
also reorders the global list in place by the sort; appends remain the only
way records enter the store.) -/
theorem c7_amended_get_touches_only_sentiment_and_order
    (analyze : String → Sentiment) (q : Query) (rs : List Review) :
    ((getStep analyze q rs).2.map stripSentiment).Perm (rs.map stripSentiment) := by
  cases hf : getFiltered q rs with
  | invalidLoc => simp [getStep, hf]
  | exn => simp [getStep, hf]
  | ok pre b =>
    cases b with
    | false =>
      rw [getStep_ok_eq analyze q rs pre false hf]
      simp only [if_false, Bool.false_eq_true]
      rw [map_strip_condSet]
    | true =>
      obtain ⟨h1, h2, h3, h4⟩ := getFiltered_ok_true q rs pre hf
      subst h4
      rw [getStep_ok_eq analyze q pre pre true hf]
      simp only [if_true]
      refine ((sortByCompound_perm _).map stripSentiment).trans ?_
      rw [List.map_map]
      have heq : List.map (stripSentiment ∘ setSentiment analyze) pre =
          List.map stripSentiment pre :=
        List.map_congr_left fun r _ => stripSentiment_setSentiment analyze r
      rw [heq]

/-- C8 counterexample: the claim that every GET yields a 200 or a 400 is
false: a GET whose `start_date` does not parse produces no HTTP response at
all — `strptime` raises a `ValueError` that nothing catches. -/
theorem c8_counterexample :
    ((getStep (fun _ => ⟨0, 0, 0, 0⟩) ⟨none, some "not-a-date", none⟩ []).1).responded
      = false := by
  decide

/-- C8 amended: every GET either returns 200 with a body whose records all
carry their computed sentiment, or returns 400 "Invalid location", or lets
an uncaught exception escape — and the latter happens only when a supplied
`start_date`/`end_date` fails to parse or some stored timestamp fails to
parse under the fixed format. -/
theorem c8_amended_get_outcomes (analyze : String → Sentiment) (q : Query)
    (rs : List Review) :
    (∃ out, (getStep analyze q rs).1 = .ok out ∧
      ∀ r ∈ out, r.sentiment = some (analyze r.reviewBody)) ∨
    (getStep analyze q rs).1 = .badRequest "Invalid location" ∨
    ((getStep analyze q rs).1 = .exn ∧
      ((∃ s, startParam q = some s ∧ parseDate10 s = none) ∨
       (∃ s, endParam q = some s ∧ parseDate10 s = none) ∨
       (∃ r ∈ rs, parseTimestamp19 r.timestamp = none))) := by
  cases hf : getFiltered q rs with
  | invalidLoc =>
    right; left
    simp [getStep, hf]
  | exn =>
    right; right
    refine ⟨by simp [getStep, hf], getFiltered_exn q rs hf⟩
  | ok pre b =>
    left
    refine ⟨sortByCompound (pre.map (setSentiment analyze)), by simp [getStep, hf], ?_⟩
    intro r hr
    obtain ⟨x, hx, rfl⟩ := mem_sortByCompound_map_set analyze pre r hr
    rfl

/-- A record passes a date-filter bound exactly when its stored timestamp
parses and the parsed instant satisfies the bound. -/
theorem tsKeep_eq_true (keep : DateTime → Bool) (r : Review) :
    tsKeep keep r = true ↔
      ∃ t, parseTimestamp19 r.timestamp = some t ∧ keep t = true := by
  unfold tsKeep
  cases hp : parseTimestamp19 r.timestamp <;> simp

/-- Membership characterisation of the `end_date` stage. -/
theorem getFilteredEnd_ok_mem (q : Query) (f pre : List Review) (b b' : Bool)
    (h : getFilteredEnd q f b = .ok pre b') :
    ∀ r, r ∈ pre ↔ r ∈ f ∧
      (∀ s ed, endParam q = some s → parseDate10 s = some ed →
        ∃ t, parseTimestamp19 r.timestamp = some t ∧ t.le ed = true) := by
  cases he : endParam q with
  | none =>
    simp only [getFilteredEnd, he, GetOutcome.ok.injEq] at h
    obtain ⟨h1, -⟩ := h
    subst h1
    intro r
    constructor
    · intro hr
      exact ⟨hr, fun s ed hcon => nomatch hcon⟩
    · intro hr
      exact hr.1
  | some s =>
    cases hp : parseDate10 s with
    | none => simp [getFilteredEnd, he, hp] at h
    | some ed =>
      cases hft : filterTs (fun t => t.le ed) f with
      | none => simp [getFilteredEnd, he, hp, hft] at h
      | some out =>
        simp only [getFilteredEnd, he, hp, hft, GetOutcome.ok.injEq] at h
        obtain ⟨h1, -⟩ := h
        subst h1
        obtain ⟨hout, -⟩ := filterTs_some_eq _ f out hft
        intro r
        rw [hout, List.mem_filter, tsKeep_eq_true]
        constructor
        · rintro ⟨hrf, t, hpt, hle⟩
          refine ⟨hrf, ?_⟩
          intro s' ed' hs' hp'
          injection hs' with hss
          subst hss
          rw [hp] at hp'
          injection hp' with hpp
          subst hpp
          exact ⟨t, hpt, hle⟩
        · rintro ⟨hrf, hcond⟩
          exact ⟨hrf, hcond s ed rfl hp⟩

/-- Membership characterisation of the two date stages together. -/
theorem getFilteredDates_ok_mem (q : Query) (f pre : List Review) (b b' : Bool)
    (h : getFilteredDates q f b = .ok pre b') :
    ∀ r, r ∈ pre ↔ r ∈ f ∧
      (∀ s sd, startParam q = some s → parseDate10 s = some sd →
        ∃ t, parseTimestamp19 r.timestamp = some t ∧ sd.le t = true) ∧
      (∀ s ed, endParam q = some s → parseDate10 s = some ed →
        ∃ t, parseTimestamp19 r.timestamp = some t ∧ t.le ed = true) := by
  cases hs : startParam q with
  | none =>
    simp only [getFilteredDates, hs] at h
    intro r
    rw [getFilteredEnd_ok_mem q f pre b b' h r]
    constructor
    · rintro ⟨h1, h2⟩
      refine ⟨h1, ?_, h2⟩
      intro s sd hcon
      cases hcon
    · rintro ⟨h1, -, h2⟩
      exact ⟨h1, h2⟩
  | some s =>
    cases hp : parseDate10 s with
    | none => simp [getFilteredDates, hs, hp] at h
    | some sd =>
      cases hft : filterTs (fun t => sd.le t) f with
      | none => simp [getFilteredDates, hs, hp, hft] at h
      | some out =>
        simp only [getFilteredDates, hs, hp, hft] at h
        obtain ⟨hout, -⟩ := filterTs_some_eq _ f out hft
        intro r
        rw [getFilteredEnd_ok_mem q out pre false b' h r, hout, List.mem_filter,
          tsKeep_eq_true]
        constructor
        · rintro ⟨⟨hrf, t, hpt, hle⟩, hend⟩
          refine ⟨hrf, ?_, hend⟩
          intro s' sd' hs' hp'
          injection hs' with hss
          subst hss
          rw [hp] at hp'
          injection hp' with hpp
          subst hpp
          exact ⟨t, hpt, hle⟩
        · rintro ⟨hrf, hstart, hend⟩
          exact ⟨⟨hrf, hstart s sd rfl hp⟩, hend⟩

/-- Membership characterisation of the whole pipeline, relative to the
location-filtered list. -/
theorem getFiltered_ok_mem (q : Query) (rs pre : List Review) (b : Bool)
    (h : getFiltered q rs = .ok pre b) :
    ∀ r, r ∈ pre ↔ r ∈ locFiltered q rs ∧
      (∀ s sd, startParam q = some s → parseDate10 s = some sd →
        ∃ t, parseTimestamp19 r.timestamp = some t ∧ sd.le t = true) ∧
      (∀ s ed, endParam q = some s → parseDate10 s = some ed →
        ∃ t, parseTimestamp19 r.timestamp = some t ∧ t.le ed = true) := by
  cases hl : locParam q with
  | none =>
    simp only [getFiltered, hl] at h
    have hm := getFilteredDates_ok_mem q rs pre true b h
    simpa [locFiltered, hl] using hm
  | some l =>
    by_cases hin : l ∈ ALLOWED_LOCATIONS
    · simp only [getFiltered, hl, if_pos hin] at h
      have hm := getFilteredDates_ok_mem q _ pre false b h
      simpa [locFiltered, hl] using hm
    · simp [getFiltered, hl, hin] at h

/-- C1: for a GET whose pipeline succeeds (so every supplied date parameter
parses — "valid date parameters"), both date bounds are midnight instants of
the given days; a record survives the date filters iff it survived the
location filter and, for each given bound, its stored timestamp parses to an
instant ≥ the start-day midnight resp. ≤ the end-day midnight; hence a record
whose parsed timestamp lies on the end day itself satisfies the end bound
exactly when its stored time is exactly midnight — same-day later timestamps
are excluded. -/
theorem c1_date_filter (q : Query) (rs pre : List Review) (b : Bool)
    (hq : getFiltered q rs = .ok pre b) :
    (∀ s d, startParam q = some s → parseDate10 s = some d →
      d.hour = 0 ∧ d.minute = 0 ∧ d.second = 0) ∧
    (∀ s d, endParam q = some s → parseDate10 s = some d →
      d.hour = 0 ∧ d.minute = 0 ∧ d.second = 0) ∧
    (∀ r, r ∈ pre ↔ r ∈ locFiltered q rs ∧
      (∀ s sd, startParam q = some s → parseDate10 s = some sd →
        ∃ t, parseTimestamp19 r.timestamp = some t ∧ sd.le t = true) ∧
      (∀ s ed, endParam q = some s → parseDate10 s = some ed →
        ∃ t, parseTimestamp19 r.timestamp = some t ∧ t.le ed = true)) ∧
    (∀ (s : String) (ed t : DateTime), endParam q = some s → parseDate10 s = some ed →
      t.year = ed.year → t.month = ed.month → t.day = ed.day →
      (t.le ed = true ↔ t.hour = 0 ∧ t.minute = 0 ∧ t.second = 0)) := by
  refine ⟨fun s d _ hp => parseDate10_midnight s d hp,
    fun s d _ hp => parseDate10_midnight s d hp,
    getFiltered_ok_mem q rs pre b hq, ?_⟩
  intro s ed t _ hp h1 h2 h3
  obtain ⟨hh, hm, hs2⟩ := parseDate10_midnight s ed hp
  exact le_midnight_same_day t ed hh hm hs2 h1 h2 h3

/-- Witness for C1: start 2024-03-01, end 2024-03-02; the record stamped
2024-03-01 12:30:00 survives while the one stamped 2024-03-02 00:00:01 (on
the end day but later than midnight) is excluded. -/
theorem c1_date_filter_witness :
    (∀ s d, startParam ⟨none, some "2024-03-01", some "2024-03-02"⟩ = some s →
      parseDate10 s = some d → d.hour = 0 ∧ d.minute = 0 ∧ d.second = 0) ∧
    (∀ s d, endParam ⟨none, some "2024-03-01", some "2024-03-02"⟩ = some s →
      parseDate10 s = some d → d.hour = 0 ∧ d.minute = 0 ∧ d.second = 0) ∧
    (∀ r : Review,
      r ∈ [⟨some "2", "nice", "Denver, Colorado", "2024-03-01 12:30:00", none⟩] ↔
      r ∈ locFiltered ⟨none, some "2024-03-01", some "2024-03-02"⟩
          [⟨some "2", "nice", "Denver, Colorado", "2024-03-01 12:30:00", none⟩,
           ⟨some "3", "late", "Denver, Colorado", "2024-03-02 00:00:01", none⟩] ∧
      (∀ s sd, startParam ⟨none, some "2024-03-01", some "2024-03-02"⟩ = some s →
        parseDate10 s = some sd →
        ∃ t, parseTimestamp19 r.timestamp = some t ∧ sd.le t = true) ∧
      (∀ s ed, endParam ⟨none, some "2024-03-01", some "2024-03-02"⟩ = some s →
        parseDate10 s = some ed →
        ∃ t, parseTimestamp19 r.timestamp = some t ∧ t.le ed = true)) ∧
    (∀ (s : String) (ed t : DateTime), endParam ⟨none, some "2024-03-01", some "2024-03-02"⟩ = some s →
      parseDate10 s = some ed →
      t.year = ed.year → t.month = ed.month → t.day = ed.day →
      (t.le ed = true ↔ t.hour = 0 ∧ t.minute = 0 ∧ t.second = 0)) :=
  c1_date_filter ⟨none, some "2024-03-01", some "2024-03-02"⟩
    [⟨some "2", "nice", "Denver, Colorado", "2024-03-01 12:30:00", none⟩,
     ⟨some "3", "late", "Denver, Colorado", "2024-03-02 00:00:01", none⟩]
    [⟨some "2", "nice", "Denver, Colorado", "2024-03-01 12:30:00", none⟩]
    false (by decide)

/-- C2: every 200 GET response body is sorted by non-increasing compound
sentiment score, and the sort is stable: the body is a permutation of the
filtered collection with sentiments computed (the pre-sort list), and for
every score value the records carrying that score appear in the body in
exactly the order they had in that pre-sort list. -/
theorem c2_sorted_stable (analyze : String → Sentiment) (q : Query)
    (rs out st : List Review)
    (h : getStep analyze q rs = (.ok out, st)) :
    out.Pairwise (fun a b => compoundKey b ≤ compoundKey a) ∧
    ∃ pre b, getFiltered q rs = .ok pre b ∧
      out.Perm (pre.map (setSentiment analyze)) ∧
      ∀ c : ℚ, out.filter (fun x => decide (compoundKey x = c)) =
        (pre.map (setSentiment analyze)).filter
          (fun x => decide (compoundKey x = c)) := by
  cases hf : getFiltered q rs with
  | invalidLoc => simp [getStep, hf] at h
  | exn => simp [getStep, hf] at h
  | ok pre b =>
    rw [getStep_ok_eq analyze q rs pre b hf, Prod.mk.injEq] at h
    obtain ⟨h1, h2⟩ := h
    rw [GetResult.ok.injEq] at h1
    subst h1
    exact ⟨sortByCompound_pairwise _, pre, b, rfl, sortByCompound_perm _,
      fun c => sortByCompound_stable _ c⟩

/-- Witness for C2 on two records with tied (zero) compound scores: the 200
body keeps their original relative order. -/
theorem c2_sorted_stable_witness :
    ([⟨some "1", "a", "Denver, Colorado", "2024-01-01 00:00:00", some ⟨0, 0, 0, 0⟩⟩,
      ⟨some "2", "b", "Denver, Colorado", "2024-01-01 00:00:00", some ⟨0, 0, 0, 0⟩⟩] :
      List Review).Pairwise (fun a b => compoundKey b ≤ compoundKey a) ∧
    ∃ pre b, getFiltered ⟨none, none, none⟩
        [⟨some "1", "a", "Denver, Colorado", "2024-01-01 00:00:00", none⟩,
         ⟨some "2", "b", "Denver, Colorado", "2024-01-01 00:00:00", none⟩] =
        .ok pre b ∧
      ([⟨some "1", "a", "Denver, Colorado", "2024-01-01 00:00:00", some ⟨0, 0, 0, 0⟩⟩,
        ⟨some "2", "b", "Denver, Colorado", "2024-01-01 00:00:00", some ⟨0, 0, 0, 0⟩⟩] :
        List Review).Perm (pre.map (setSentiment fun _ => ⟨0, 0, 0, 0⟩)) ∧
      ∀ c : ℚ,
        ([⟨some "1", "a", "Denver, Colorado", "2024-01-01 00:00:00", some ⟨0, 0, 0, 0⟩⟩,
          ⟨some "2", "b", "Denver, Colorado", "2024-01-01 00:00:00", some ⟨0, 0, 0, 0⟩⟩] :
          List Review).filter (fun x => decide (compoundKey x = c)) =
        (pre.map (setSentiment fun _ => ⟨0, 0, 0, 0⟩)).filter
          (fun x => decide (compoundKey x = c)) :=
  c2_sorted_stable (fun _ => ⟨0, 0, 0, 0⟩) ⟨none, none, none⟩
    [⟨some "1", "a", "Denver, Colorado", "2024-01-01 00:00:00", none⟩,
     ⟨some "2", "b", "Denver, Colorado", "2024-01-01 00:00:00", none⟩]
    [⟨some "1", "a", "Denver, Colorado", "2024-01-01 00:00:00", some ⟨0, 0, 0, 0⟩⟩,
     ⟨some "2", "b", "Denver, Colorado", "2024-01-01 00:00:00", some ⟨0, 0, 0, 0⟩⟩]
    [⟨some "1", "a", "Denver, Colorado", "2024-01-01 00:00:00", some ⟨0, 0, 0, 0⟩⟩,
     ⟨some "2", "b", "Denver, Colorado", "2024-01-01 00:00:00", some ⟨0, 0, 0, 0⟩⟩]
    (by decide)

/-- C9: reads are idempotent: issuing the same GET twice with no intervening
POST yields the identical outcome the second time — in particular the same
records (hence the same set of review identifiers) with numerically identical
recomputed sentiment scores, the analyzer being a pure function. -/
theorem c9_get_idempotent (analyze : String → Sentiment) (q : Query)
    (rs : List Review) :
    (getStep analyze q ((getStep analyze q rs).2)).1 = (getStep analyze q rs).1 := by
  cases hf : getFiltered q rs with
  | invalidLoc =>
    have h1 : getStep analyze q rs = (.badRequest "Invalid location", rs) := by
      simp [getStep, hf]
    rw [h1]
    show (getStep analyze q rs).1 = GetResult.badRequest "Invalid location"
    rw [h1]
  | exn =>
    have h1 : getStep analyze q rs = (.exn, rs) := by
      simp [getStep, hf]
    rw [h1]
    show (getStep analyze q rs).1 = GetResult.exn
    rw [h1]
  | ok pre b =>
    cases b with
    | true =>
      obtain ⟨h1, h2, h3, h4⟩ := getFiltered_ok_true q rs pre hf
      subst h4
      rw [getStep_ok_eq analyze q pre pre true hf]
      show (getStep analyze q (sortByCompound (pre.map (setSentiment analyze)))).1 =
        GetResult.ok (sortByCompound (pre.map (setSentiment analyze)))
      have hf2 : getFiltered q (sortByCompound (pre.map (setSentiment analyze))) =
          .ok (sortByCompound (pre.map (setSentiment analyze))) true := by
        unfold getFiltered getFilteredDates getFilteredEnd
        rw [h1, h2, h3]
      rw [getStep_ok_eq analyze q _ _ true hf2]
      show GetResult.ok (sortByCompound
          ((sortByCompound (pre.map (setSentiment analyze))).map
            (setSentiment analyze))) =
        GetResult.ok (sortByCompound (pre.map (setSentiment analyze)))
      have hall : ∀ r ∈ sortByCompound (pre.map (setSentiment analyze)),
          setSentiment analyze r = r := by
        intro r hrS
        obtain ⟨x, hx, hrx⟩ := mem_sortByCompound_map_set analyze pre r hrS
        rw [hrx]
        exact setSentiment_setSentiment analyze x
      have hmap : (sortByCompound (pre.map (setSentiment analyze))).map
          (setSentiment analyze) = sortByCompound (pre.map (setSentiment analyze)) := by
        calc (sortByCompound (pre.map (setSentiment analyze))).map (setSentiment analyze)
            = (sortByCompound (pre.map (setSentiment analyze))).map id :=
              List.map_congr_left hall
          _ = _ := List.map_id _
      rw [hmap, sortByCompound_of_pairwise _ (sortByCompound_pairwise _)]
    | false =>
      rw [getStep_ok_eq analyze q rs pre false hf]
      show (getStep analyze q
          (rs.map fun r => if r ∈ pre then setSentiment analyze r else r)).1 =
        GetResult.ok (sortByCompound (pre.map (setSentiment analyze)))
      have hstrip : (rs.map fun r => if r ∈ pre then setSentiment analyze r else r).map
          stripSentiment = rs.map stripSentiment := map_strip_condSet analyze pre rs
      have hso : stripOutcome (getFiltered q
          (rs.map fun r => if r ∈ pre then setSentiment analyze r else r)) =
          .ok (pre.map stripSentiment) false := by
        rw [← getFiltered_strip, hstrip, getFiltered_strip, hf]
        rfl
      cases hf2 : getFiltered q
          (rs.map fun r => if r ∈ pre then setSentiment analyze r else r) with
      | invalidLoc => rw [hf2] at hso; cases hso
      | exn => rw [hf2] at hso; cases hso
      | ok pre2 b2 =>
        rw [hf2] at hso
        simp only [stripOutcome, GetOutcome.ok.injEq] at hso
        obtain ⟨hpre, hb2⟩ := hso
        subst hb2
        rw [getStep_ok_eq analyze q _ pre2 false hf2]
        show GetResult.ok (sortByCompound (pre2.map (setSentiment analyze))) =
          GetResult.ok (sortByCompound (pre.map (setSentiment analyze)))
        have hmap2 : pre2.map (setSentiment analyze) =
            pre.map (setSentiment analyze) := by
          rw [← map_set_map_strip analyze pre2, hpre, map_set_map_strip]
        rw [hmap2]
